import Mathlib

/-!
Verification of the jplearnbot quiz-session subsystem: an embedding of the
dictionary data model (`src/dictionary.rs`), the runtime dictionary and its
`sample` filter (`src/bin/kate_bot/dictionary.rs`), and the game manager,
question builder and round-menu controller (`src/bin/kate_bot/game.rs`).

Randomness in the source (`shuffle`, `choose_multiple_fill`) is modelled by
explicit oracle parameters: a shuffle becomes an arbitrary permutation
(`Equiv.Perm (Fin 5)` or a permutation-valued function constrained by a
`List.Perm` hypothesis), and reservoir sampling becomes a selection function
constrained by `List.Subperm`.
-/

/-- JLPT proficiency level (`NLevel` in `src/dictionary.rs`). -/
inductive NLevel where
  | N1
  | N2
  | N3
  | N4
deriving DecidableEq, Repr

/-- Numeric rank used for the derived `Ord`/`sort_unstable` order on `NLevel`
(declaration order: N1 < N2 < N3 < N4). -/
def nlevelRank : NLevel → Nat
  | .N1 => 0
  | .N2 => 1
  | .N3 => 2
  | .N4 => 3

/-- Part-of-speech tag (the `Pos` enum of `src/dictionary.rs`, all variants). -/
inductive Pos where
  | AdjF
  | AdjI
  | AdjIx
  | AdjKari
  | AdjKu
  | AdjNa
  | AdjNari
  | AdjNo
  | AdjPn
  | AdjShiku
  | AdjT
  | Adv
  | AdvTo
  | Aux
  | AuxAdj
  | AuxV
  | Conj
  | Cop
  | Ctr
  | Exp
  | Int
  | N
  | NAdv
  | NPr
  | NPref
  | NSuf
  | NT
  | Num
  | Pn
  | Pref
  | Prt
  | Suf
  | Unc
  | VUnspec
  | V1
  | V1S
  | V2aS
  | V2bK
  | V2bS
  | V2dK
  | V2dS
  | V2gk
  | V2gS
  | V2hK
  | V2hS
  | V2kK
  | V2kS
  | V2mK
  | V2mS
  | V2nS
  | V2rK
  | V2rS
  | V2sS
  | V2tK
  | V2tS
  | V2wS
  | V2yK
  | V2yS
  | V2zS
  | V4b
  | V4g
  | V4h
  | V4k
  | V4m
  | V4n
  | V4r
  | V4s
  | V4t
  | V5aru
  | V5b
  | V5g
  | V5k
  | V5kS
  | V5m
  | V5n
  | V5r
  | V5rI
  | V5s
  | V5t
  | V5u
  | V5uS
  | V5uru
  | Vi
  | Vk
  | Vn
  | Vr
  | Vs
  | VsC
  | VsI
  | VsS
  | Vt
  | Vz
deriving DecidableEq, Repr

/-- A gloss (translated meaning) of a sense. -/
structure Gloss where
  content : String
deriving DecidableEq, Repr

/-- One sense of a dictionary entry (`Sense` in `src/dictionary.rs`). -/
structure Sense where
  relevant_kanji : List String
  relevant_reading : List String
  pos : List Pos
  gloss : List Gloss
deriving DecidableEq, Repr

/-- A kana reading of an entry (`Reading` in `src/dictionary.rs`). -/
structure Reading where
  text : String
  relevant_to : List String
  levels : List NLevel
deriving DecidableEq, Repr

/-- A kanji spelling of an entry (`Kanji` in `src/dictionary.rs`). -/
structure Kanji where
  text : String
  levels : List NLevel
deriving DecidableEq, Repr

/-- A dictionary entry (`DictEntry` in `src/dictionary.rs`). -/
structure DictEntry where
  id : Nat
  kanjis : List Kanji
  readings : List Reading
  senses : List Sense
deriving DecidableEq, Repr

/-- Removes consecutive duplicates, as `Vec::dedup` does. -/
def dedupConsec : List NLevel → List NLevel
  | [] => []
  | [a] => [a]
  | a :: b :: rest =>
    if a = b then dedupConsec (b :: rest) else a :: dedupConsec (b :: rest)

/-- Ordered insertion in the derived `Ord` order of `NLevel`. -/
def insertLevel (a : NLevel) : List NLevel → List NLevel
  | [] => [a]
  | b :: t =>
    if nlevelRank a ≤ nlevelRank b then a :: b :: t else b :: insertLevel a t

/-- `sort_unstable` on levels (insertion sort; any sorting algorithm is a
faithful model). -/
def sortLevels : List NLevel → List NLevel
  | [] => []
  | a :: t => insertLevel a (sortLevels t)

/-- `DictEntry::levels`: collects the levels of all readings (kanji level tags
are not consulted), then sorts and removes consecutive duplicates. -/
def DictEntry.levels (e : DictEntry) : List NLevel :=
  dedupConsec (sortLevels (e.readings.flatMap (fun r => r.levels)))

/-- The runtime dictionary of the bot (`Dictionary` in
`src/bin/kate_bot/dictionary.rs`). -/
structure Dictionary where
  entries : List DictEntry
deriving DecidableEq, Repr

/-- The filter condition of `Dictionary::sample`: at least one matching
`NLevel` (via `DictEntry::levels`, i.e. reading levels) and at least one sense
with a matching part of speech. -/
def sampleQualifies (e : DictEntry) (levels : List NLevel) (pos : List Pos) : Bool :=
  e.levels.any (fun lvl => levels.contains lvl) &&
    e.senses.any (fun sense => sense.pos.any (fun p => pos.contains p))

/-- `Dictionary::sample`: the randomized subset of the entries matching the
level and part-of-speech filters. The concluding `shuffle` with a fresh RNG is
modelled by the explicit `shuffle` parameter (constrained to a permutation in
the theorems). -/
def Dictionary.sample (d : Dictionary) (levels : List NLevel) (pos : List Pos)
    (shuffle : List DictEntry → List DictEntry) : List DictEntry :=
  shuffle (d.entries.filter (fun e => sampleQualifies e levels pos))

/-- `reading_sense_pair` in `game.rs`: a sense with the `pos` tag and at least
one gloss, and a reading unrestricted or listed in the sense's
`relevant_reading`. -/
def reading_sense_pair (e : DictEntry) (pos : Pos) : Option (Reading × Sense) := do
  let sense ← e.senses.find? (fun s => s.pos.contains pos && !s.gloss.isEmpty)
  let reading ← e.readings.find?
    (fun r => sense.relevant_reading.isEmpty || sense.relevant_reading.contains r.text)
  pure (reading, sense)

/-- `kanji_reading_pair` in `game.rs`: a sense with the `pos` tag, the first
kanji spelling, and a reading compatible with that kanji and that sense. -/
def kanji_reading_pair (e : DictEntry) (pos : Pos) : Option (Kanji × Reading) := do
  let sense ← e.senses.find? (fun s => s.pos.contains pos)
  let kanji ← e.kanjis.head?
  let reading ← e.readings.find? (fun r =>
    (r.relevant_to.isEmpty || r.relevant_to.contains kanji.text) &&
      (sense.relevant_reading.isEmpty || sense.relevant_reading.contains r.text))
  pure (kanji, reading)

/-- `kanji_sense_pair` in `game.rs`: a sense with the `pos` tag and at least
one gloss, and the first kanji spelling. -/
def kanji_sense_pair (e : DictEntry) (pos : Pos) : Option (Kanji × Sense) := do
  let sense ← e.senses.find? (fun s => s.pos.contains pos && !s.gloss.isEmpty)
  let kanji ← e.kanjis.head?
  pure (kanji, sense)

/-- `sense.gloss[0].content` — total rendering of the Rust index, safe at every
use site because the sense was found with `!s.gloss.is_empty()`. -/
def glossHead (s : Sense) : String :=
  match s.gloss with
  | [] => ""
  | g :: _ => g.content

/-- Game question (`Question` in `game.rs`): prompt, the five option strings
(`[String; 5]`) and the index of the correct option. -/
structure Question where
  prompt : String
  options : List String
  answer : Nat
deriving DecidableEq, Repr

/-- The option array before shuffling: slot 0 holds the correct target, the
next slots hold the strings picked by `choose_multiple_fill` (at most 4), and
any remaining slot keeps the empty string the array was initialized with. -/
def mkOptions (target : String) (sel : List String) : List String :=
  target :: ((sel.take 4) ++ List.replicate (4 - (sel.take 4).length) "")

/-- `options.shuffle(&mut rng())` modelled by an explicit permutation of the
five positions. -/
def applyPerm (σ : Equiv.Perm (Fin 5)) (l : List String) : List String :=
  List.ofFn (fun i : Fin 5 => l.getD (σ i) "")

/-- `position(|o| target == *o).unwrap()`: index of the first option equal to
the target. -/
def answerIndex (target : String) (options : List String) : Nat :=
  options.findIdx (fun o => target = o)

/-- Candidate distractors of `Question::new_eng_to_hir`: the readings produced
by `reading_sense_pair` on every other entry under the same `pos`. -/
def candsEngToHir (dict : Dictionary) (entry : DictEntry) (pos : Pos) : List String :=
  dict.entries.filterMap (fun e =>
    if e.id = entry.id then none
    else (reading_sense_pair e pos).map (fun p => p.1.text))

/-- Candidate distractors of `Question::new_hir_to_eng`: first glosses of the
senses produced by `reading_sense_pair` on every other entry. -/
def candsHirToEng (dict : Dictionary) (entry : DictEntry) (pos : Pos) : List String :=
  dict.entries.filterMap (fun e =>
    if e.id = entry.id then none
    else (reading_sense_pair e pos).map (fun p => glossHead p.2))

/-- Candidate distractors of `Question::new_hir_to_kan`: kanji spellings
produced by `kanji_reading_pair` on every other entry. -/
def candsHirToKan (dict : Dictionary) (entry : DictEntry) (pos : Pos) : List String :=
  dict.entries.filterMap (fun e =>
    if e.id = entry.id then none
    else (kanji_reading_pair e pos).map (fun p => p.1.text))

/-- Candidate distractors of `Question::new_kan_to_hir`: readings produced by
`kanji_reading_pair` on every other entry. -/
def candsKanToHir (dict : Dictionary) (entry : DictEntry) (pos : Pos) : List String :=
  dict.entries.filterMap (fun e =>
    if e.id = entry.id then none
    else (kanji_reading_pair e pos).map (fun p => p.2.text))

/-- Candidate distractors of `Question::new_kan_to_eng`: first glosses produced
by `kanji_sense_pair` on every other entry. -/
def candsKanToEng (dict : Dictionary) (entry : DictEntry) (pos : Pos) : List String :=
  dict.entries.filterMap (fun e =>
    if e.id = entry.id then none
    else (kanji_sense_pair e pos).map (fun p => glossHead p.2))

/-- Candidate distractors of `Question::new_eng_to_kan`: kanji spellings
produced by `kanji_sense_pair` on every other entry. -/
def candsEngToKan (dict : Dictionary) (entry : DictEntry) (pos : Pos) : List String :=
  dict.entries.filterMap (fun e =>
    if e.id = entry.id then none
    else (kanji_sense_pair e pos).map (fun p => p.1.text))

/-- `Question::new_eng_to_hir`. The RNG-driven `choose_multiple_fill` is the
`choose` parameter applied to the candidate list, and the final shuffle is the
permutation `σ`. -/
def Question.new_eng_to_hir (entry : DictEntry) (pos : Pos) (dict : Dictionary)
    (choose : List String → List String) (σ : Equiv.Perm (Fin 5)) : Option Question :=
  match reading_sense_pair entry pos with
  | none => none
  | some (reading, sense) =>
    let options := applyPerm σ (mkOptions reading.text (choose (candsEngToHir dict entry pos)))
    some { prompt := glossHead sense, options, answer := answerIndex reading.text options }

/-- `Question::new_hir_to_eng`. -/
def Question.new_hir_to_eng (entry : DictEntry) (pos : Pos) (dict : Dictionary)
    (choose : List String → List String) (σ : Equiv.Perm (Fin 5)) : Option Question :=
  match reading_sense_pair entry pos with
  | none => none
  | some (reading, sense) =>
    let options := applyPerm σ (mkOptions (glossHead sense) (choose (candsHirToEng dict entry pos)))
    some { prompt := reading.text, options, answer := answerIndex (glossHead sense) options }

/-- `Question::new_hir_to_kan`. -/
def Question.new_hir_to_kan (entry : DictEntry) (pos : Pos) (dict : Dictionary)
    (choose : List String → List String) (σ : Equiv.Perm (Fin 5)) : Option Question :=
  match kanji_reading_pair entry pos with
  | none => none
  | some (kanji, reading) =>
    let options := applyPerm σ (mkOptions kanji.text (choose (candsHirToKan dict entry pos)))
    some { prompt := reading.text, options, answer := answerIndex kanji.text options }

/-- `Question::new_kan_to_hir`. -/
def Question.new_kan_to_hir (entry : DictEntry) (pos : Pos) (dict : Dictionary)
    (choose : List String → List String) (σ : Equiv.Perm (Fin 5)) : Option Question :=
  match kanji_reading_pair entry pos with
  | none => none
  | some (kanji, reading) =>
    let options := applyPerm σ (mkOptions reading.text (choose (candsKanToHir dict entry pos)))
    some { prompt := kanji.text, options, answer := answerIndex reading.text options }

/-- `Question::new_kan_to_eng`. -/
def Question.new_kan_to_eng (entry : DictEntry) (pos : Pos) (dict : Dictionary)
    (choose : List String → List String) (σ : Equiv.Perm (Fin 5)) : Option Question :=
  match kanji_sense_pair entry pos with
  | none => none
  | some (kanji, sense) =>
    let options := applyPerm σ (mkOptions (glossHead sense) (choose (candsKanToEng dict entry pos)))
    some { prompt := kanji.text, options, answer := answerIndex (glossHead sense) options }

/-- `Question::new_eng_to_kan`. -/
def Question.new_eng_to_kan (entry : DictEntry) (pos : Pos) (dict : Dictionary)
    (choose : List String → List String) (σ : Equiv.Perm (Fin 5)) : Option Question :=
  match kanji_sense_pair entry pos with
  | none => none
  | some (kanji, sense) =>
    let options := applyPerm σ (mkOptions kanji.text (choose (candsEngToKan dict entry pos)))
    some { prompt := glossHead sense, options, answer := answerIndex kanji.text options }

/-- Game modes (`ModeChoice` in `game.rs`). -/
inductive ModeChoice where
  | EngToHir
  | HirToEng
  | HirToKan
  | KanToHir
  | KanToEng
  | EngToKan
deriving DecidableEq, Repr

/-- `Question::new`: dispatch on the game mode. -/
def Question.new (entry : DictEntry) (mode : ModeChoice) (pos : Pos) (dict : Dictionary)
    (choose : List String → List String) (σ : Equiv.Perm (Fin 5)) : Option Question :=
  match mode with
  | .EngToHir => Question.new_eng_to_hir entry pos dict choose σ
  | .HirToEng => Question.new_hir_to_eng entry pos dict choose σ
  | .HirToKan => Question.new_hir_to_kan entry pos dict choose σ
  | .KanToHir => Question.new_kan_to_hir entry pos dict choose σ
  | .KanToEng => Question.new_kan_to_eng entry pos dict choose σ
  | .EngToKan => Question.new_eng_to_kan entry pos dict choose σ

/-- The correct target value extracted from the source entry for a mode: the
value that `Question::new` places in option slot 0 before shuffling. -/
def questionTarget (entry : DictEntry) (mode : ModeChoice) (pos : Pos) : Option String :=
  match mode with
  | .EngToHir => (reading_sense_pair entry pos).map (fun p => p.1.text)
  | .HirToEng => (reading_sense_pair entry pos).map (fun p => glossHead p.2)
  | .HirToKan => (kanji_reading_pair entry pos).map (fun p => p.1.text)
  | .KanToHir => (kanji_reading_pair entry pos).map (fun p => p.2.text)
  | .KanToEng => (kanji_sense_pair entry pos).map (fun p => glossHead p.2)
  | .EngToKan => (kanji_sense_pair entry pos).map (fun p => p.1.text)

/-- A component interaction event, reduced to the field the game subsystem
reads (`interaction.data.custom_id`). -/
structure Interaction where
  custom_id : String
deriving DecidableEq, Repr

/-- `GameMessage` in `game.rs`: either a forwarded component interaction or the
close request. -/
inductive GameMessage where
  | interaction (ci : Interaction)
  | close
deriving DecidableEq, Repr

/-- The session registry of `Manager` (`DashMap<u64, Sender<GameMessage>>`):
each registered key owns a control channel, modelled as the queue of messages
sent into it. Keys are the `u64` session ids. -/
structure ManagerState where
  sessions : List (Nat × List GameMessage)
deriving DecidableEq, Repr

/-- Registry lookup (`DashMap::get`). -/
def getSession : List (Nat × List GameMessage) → Nat → Option (List GameMessage)
  | [], _ => none
  | (k, q) :: rest, key => if key = k then some q else getSession rest key

/-- `DashMap::contains_key`. -/
def hasSession (s : ManagerState) (key : Nat) : Bool :=
  (getSession s.sessions key).isSome

/-- `tx.send(msg)` on the registry list: append `msg` to `key`'s
control-channel queue. -/
def enqueueChan : List (Nat × List GameMessage) → Nat → GameMessage →
    List (Nat × List GameMessage)
  | [], _, _ => []
  | (k, q) :: rest, key, msg =>
    if k = key then (k, q ++ [msg]) :: enqueueChan rest key msg
    else (k, q) :: enqueueChan rest key msg

/-- `tx.send(msg)`: append `msg` to `key`'s control-channel queue. -/
def enqueueMessage (s : ManagerState) (key : Nat) (msg : GameMessage) : ManagerState :=
  ⟨enqueueChan s.sessions key msg⟩

/-- `DashMap::remove`: drop `key`'s registry entry. -/
def eraseSession (s : ManagerState) (key : Nat) : ManagerState :=
  ⟨s.sessions.filter (fun p => !(p.1 = key))⟩

/-- The error of `Manager::start_game` (`SessionAlreadyCreated` in
`game.rs`). -/
structure SessionAlreadyCreated where
deriving DecidableEq, Repr

/-- The registry effect of `Manager::start_game` for session key
`session_id`: if the key is already present, fail with
`SessionAlreadyCreated` and leave the registry alone; otherwise create the
control channel (a fresh empty queue), register it under the key, and return
`Ok`. The spawned task is modelled separately by `sessionLoop` and
`sessionEpilogue`. -/
def start_game (s : ManagerState) (session_id : Nat) :
    Except SessionAlreadyCreated Unit × ManagerState :=
  if hasSession s session_id then (.error {}, s)
  else (.ok (), ⟨(session_id, []) :: s.sessions⟩)

/-- `Manager::stop`: if `session_id` has a registered session, send it
`GameMessage::Close` and return true; otherwise return false. -/
def Manager.stop (s : ManagerState) (session_id : Nat) : Bool × ManagerState :=
  if hasSession s session_id then (true, enqueueMessage s session_id .close)
  else (false, s)

/-- `parse_session_id` in `game.rs`: the leading run of decimal digits of the
custom id, parsed as a `u64` (`parse::<u64>()` fails on overflow, hence the
`2 ^ 64` bound). -/
def parse_session_id (interaction_id : String) : Option Nat :=
  let ds := interaction_id.data.takeWhile Char.isDigit
  if ds.isEmpty then none
  else
    let n := ds.foldl (fun a c => a * 10 + (c.toNat - 48)) 0
    if n < 2 ^ 64 then some n else none

/-- `Manager::send`: parse the session id out of the interaction's custom id,
and if a session is registered under it, forward the interaction to its
control channel; otherwise do nothing. -/
def Manager.send (s : ManagerState) (ci : Interaction) : ManagerState :=
  match parse_session_id ci.custom_id with
  | none => s
  | some id => if hasSession s id then enqueueMessage s id (.interaction ci) else s

/-- `InteractionExitReason` in `game.rs`: why a session's interaction loop
stopped. -/
inductive InteractionExitReason where
  | PoolExhausted
  | Timeout
  | NetworkError
  | CloseRequest
deriving DecidableEq, Repr

/-- The failures `Menu::handle_interactions` can return: `component_interaction`
yields `Timeout` or `CloseRequest`, and a failed edit/response yields
`NetworkError` (never `PoolExhausted`). -/
inductive RoundAbort where
  | Timeout
  | NetworkError
  | CloseRequest
deriving DecidableEq, Repr

/-- Injection of round failures into exit reasons. -/
def RoundAbort.toExit : RoundAbort → InteractionExitReason
  | .Timeout => .Timeout
  | .NetworkError => .NetworkError
  | .CloseRequest => .CloseRequest

/-- What one iteration of the session loop in `Manager::start_game` did for a
sampled entry: no question could be built (`continue`), sending the round
message failed (`break` with `NetworkError`), the round was answered
correctly (loop on), or `handle_interactions` aborted. -/
inductive RoundEvent where
  | noQuestion
  | sendFailed
  | answered
  | aborted (a : RoundAbort)
deriving DecidableEq, Repr

/-- The exit reason of the session loop of `Manager::start_game`: starts as
`PoolExhausted` and is overwritten by the first failing round. -/
def sessionLoop : List RoundEvent → InteractionExitReason
  | [] => .PoolExhausted
  | .noQuestion :: rest => sessionLoop rest
  | .sendFailed :: _ => .NetworkError
  | .answered :: rest => sessionLoop rest
  | .aborted a :: _ => a.toExit

/-- The final status message of the session task in `Manager::start_game`:
one distinct text per exit reason, none for a close request. -/
def exitMessage : InteractionExitReason → Option String
  | .PoolExhausted => some "There are no more words left in the pool"
  | .Timeout => some "Stopping game due to inactivity..."
  | .NetworkError => some "Stopping game due to network error..."
  | .CloseRequest => none

/-- The inactivity bound of `component_interaction`
(`Duration::from_secs(120)`). -/
def sessionTimeoutSecs : Nat := 120

/-- The tail of the session task in `Manager::start_game`: emit the final
status message (if any) and deregister the session
(`sessions.remove(&session_id)`). -/
def sessionEpilogue (s : ManagerState) (session_id : Nat)
    (reason : InteractionExitReason) : Option String × ManagerState :=
  (exitMessage reason, eraseSession s session_id)

/-- `parse_custom_id` in `game.rs`: the regex `^(.*),([0-4])$` — the id must
end in a comma followed by one digit `0`–`4`; the greedy `.*` captures
everything before that final comma. -/
def parse_custom_id (custom_id : String) : Option (String × Nat) :=
  match custom_id.data.reverse with
  | d :: ',' :: rest =>
    if '0' ≤ d ∧ d ≤ '4' then some (String.mk rest.reverse, d.toNat - 48)
    else none
  | _ => none

/-- `QuestionComponent` in `game.rs`: one option button of a round. -/
structure QuestionComponent where
  id : String
  text : String
  disabled : Bool
deriving DecidableEq, Repr, Inhabited

/-- The round state of `Menu` in `game.rs` (the platform handles — `http`,
`entry` — are outside the embedding). -/
structure Menu where
  id : String
  questions : List QuestionComponent
  answer : Nat
deriving DecidableEq, Repr

/-- `Menu::new`: each option string becomes a component with id
`format!("{id},{i}")`, initially enabled. -/
def Menu.new (id : String) (question : Question) : Menu :=
  { id
    questions := question.options.enum.map (fun p =>
      { id := id ++ "," ++ toString p.1, text := p.2, disabled := false })
    answer := question.answer }

/-- `Menu::answer_id`: the component id of the recorded answer. -/
def Menu.answer_id (m : Menu) : String :=
  (m.questions.getD m.answer default).id

/-- Round status after one event: the loop in `Menu::handle_interactions`
breaks (the round is resolved) exactly when the correct option was chosen. -/
inductive MenuStatus where
  | Active
  | Resolved
deriving DecidableEq, Repr

/-- `q.disabled = true` on one option component. -/
def QuestionComponent.disable (q : QuestionComponent) : QuestionComponent :=
  { q with disabled := true }

/-- One iteration of the loop in `Menu::handle_interactions` on a received
interaction: parse its custom id, skip it when the menu id is stale, otherwise
disable all components on a correct choice (and resolve the round) or only the
chosen component on an incorrect one. -/
def Menu.handleEvent (m : Menu) (custom_id : String) : Menu × MenuStatus :=
  match parse_custom_id custom_id with
  | none => (m, .Active)
  | some (menu_id, choice) =>
    if menu_id = m.id then
      if (m.questions.getD choice default).id = m.answer_id then
        ({ m with questions := m.questions.map QuestionComponent.disable }, .Resolved)
      else
        ({ m with questions :=
            m.questions.set choice (m.questions.getD choice default).disable }, .Active)
    else (m, .Active)

/-- Modelled from the spec: the 5×8 hiragana grid of §4.3 (the distractor
engine is not present under `src/`); each inner list is one consonant column
holding the five vowel-row variants. -/
def hiraganaGrid : List (List Char) :=
  [['あ', 'い', 'う', 'え', 'お'],
   ['か', 'き', 'く', 'け', 'こ'],
   ['さ', 'し', 'す', 'せ', 'そ'],
   ['た', 'ち', 'つ', 'て', 'と'],
   ['な', 'に', 'ぬ', 'ね', 'の'],
   ['は', 'ひ', 'ふ', 'へ', 'ほ'],
   ['ま', 'み', 'む', 'め', 'も'],
   ['ら', 'り', 'る', 'れ', 'ろ']]

/-- Modelled from the spec: the independent katakana chart of §4.3. -/
def katakanaGrid : List (List Char) :=
  [['ア', 'イ', 'ウ', 'エ', 'オ'],
   ['カ', 'キ', 'ク', 'ケ', 'コ'],
   ['サ', 'シ', 'ス', 'セ', 'ソ'],
   ['タ', 'チ', 'ツ', 'テ', 'ト'],
   ['ナ', 'ニ', 'ヌ', 'ネ', 'ノ'],
   ['ハ', 'ヒ', 'フ', 'ヘ', 'ホ'],
   ['マ', 'ミ', 'ム', 'メ', 'モ'],
   ['ラ', 'リ', 'ル', 'レ', 'ロ']]

/-- Modelled from the spec: the two irregular classes of §4.3 — the "wa"
column substitution group and the 3-character "ya/yu/yo" glide group — in
standard and small-kana variants, hiragana and katakana. -/
def kanaGroups : List (List Char) :=
  [['わ', 'を'], ['ワ', 'ヲ'],
   ['や', 'ゆ', 'よ'], ['ゃ', 'ゅ', 'ょ'],
   ['ヤ', 'ユ', 'ヨ'], ['ャ', 'ュ', 'ョ']]

/-- Modelled from the spec: the row/column neighbors of a character within one
chart — the rest of its consonant column plus the rest of its vowel row. -/
def gridPool (grid : List (List Char)) (c : Char) : List Char :=
  match grid.find? (fun col => col.contains c) with
  | none => []
  | some col =>
    let i := col.findIdx (fun x => x = c)
    let row := grid.filterMap (fun col2 => col2.get? i)
    (col ++ row).filter (fun x => !(x = c))

/-- Modelled from the spec: the members of the irregular classes a character
belongs to, other than itself. -/
def groupPool (groups : List (List Char)) (c : Char) : List Char :=
  (groups.filter (fun g => g.contains c)).flatten.filter (fun x => !(x = c))

/-- Modelled from the spec: the designated swap pool of a character — its
neighbors in whichever chart contains it plus its irregular-class partners; a
character appearing nowhere has an empty pool and is left unchanged. -/
def swapPool (c : Char) : List Char :=
  gridPool hiraganaGrid c ++ gridPool katakanaGrid c ++ groupPool kanaGroups c

/-- Modelled from the spec: the per-character scramble of §4.3 over the
character list of a reading. The swap decision is aggressive (swap every
eligible character) when the reading is shorter than 4 characters or fewer
than 60% of its characters are swappable; otherwise each eligible character is
swapped when its coin flip says so. The RNG is the `coin` and `pick` oracles,
indexed by character position. -/
def scrambleChars (cs : List Char) (coin : Nat → Bool) (pick : Nat → Nat) : List Char :=
  let swappableCount := (cs.filter (fun c => !(swapPool c).isEmpty)).length
  let aggressive := cs.length < 4 || decide (swappableCount * 5 < cs.length * 3)
  cs.enum.map (fun p =>
    let pool := swapPool p.2
    if pool.isEmpty then p.2
    else if aggressive || coin p.1 then pool.getD (pick p.1 % pool.length) p.2
    else p.2)

/-- Modelled from the spec: `scramble(reading)` on strings. -/
def scrambleStr (s : String) (coin : Nat → Bool) (pick : Nat → Nat) : String :=
  String.mk (scrambleChars s.data coin pick)

/-- Modelled from the spec: the fixed sentinel placeholder substituted when
every retry collides with an already-chosen option. -/
def sentinelPlaceholder : String :=
  "？？？？"

/-- Modelled from the spec: the retry loop of §4.3's uniqueness policy, with
explicit fuel (attempts left) and the index of the current attempt; each
attempt uses the RNG oracles of its index. -/
def scrambleUniqueAux (s : String) (taken : List String)
    (oracles : Nat → (Nat → Bool) × (Nat → Nat)) : Nat → Nat → String
  | 0, _ => sentinelPlaceholder
  | n + 1, i =>
    let cand := scrambleStr s (oracles i).1 (oracles i).2
    if taken.contains cand then scrambleUniqueAux s taken oracles n (i + 1) else cand

/-- Modelled from the spec: retry the whole-string scramble up to 1000 times
for a string distinct from the already-chosen options, substituting the
sentinel placeholder when all attempts collide. -/
def scrambleUnique (s : String) (taken : List String)
    (oracles : Nat → (Nat → Bool) × (Nat → Nat)) : String :=
  scrambleUniqueAux s taken oracles 1000 0

/-- The qualification condition exactly as the spec's sampling contract words
it (§4.1): at least one reading or kanji tagged with a level in `levels`, and
at least one sense whose part-of-speech tags intersect `pos`. Stated for
comparison with `sampleQualifies`, which is translated from the code. -/
def specSampleQualifies (e : DictEntry) (levels : List NLevel) (pos : List Pos) : Bool :=
  (e.readings.any (fun r => r.levels.any (fun lvl => levels.contains lvl)) ||
      e.kanjis.any (fun k => k.levels.any (fun lvl => levels.contains lvl))) &&
    e.senses.any (fun sense => sense.pos.any (fun p => pos.contains p))

/-- Concrete entry used to instantiate theorems: one reading, one noun sense
with one gloss, no kanji. -/
def wEntry : DictEntry :=
  { id := 1, kanjis := [],
    readings := [{ text := "あ", relevant_to := [], levels := [NLevel.N4] }],
    senses := [{ relevant_kanji := [], relevant_reading := [], pos := [Pos.N],
                 gloss := [{ content := "a" }] }] }

/-- Concrete one-entry dictionary. -/
def wDict : Dictionary :=
  ⟨[wEntry]⟩

/-- The question `Question::new` builds from `wEntry` in EngToHir mode with an
empty selection and the identity shuffle. -/
def wQuestion : Question :=
  { prompt := "a", options := ["あ", "", "", "", ""], answer := 0 }

/-- Concrete source entry for the distractor-slot analysis: reading しろ. -/
def cEntry : DictEntry :=
  { id := 1, kanjis := [],
    readings := [{ text := "しろ", relevant_to := [], levels := [NLevel.N4] }],
    senses := [{ relevant_kanji := [], relevant_reading := [], pos := [Pos.N],
                 gloss := [{ content := "white" }] }] }

/-- A second entry whose reading is あ. -/
def cEntryB : DictEntry :=
  { id := 2, kanjis := [],
    readings := [{ text := "あ", relevant_to := [], levels := [NLevel.N4] }],
    senses := [{ relevant_kanji := [], relevant_reading := [], pos := [Pos.N],
                 gloss := [{ content := "b" }] }] }

/-- A third entry with the same reading あ under a different id. -/
def cEntryC : DictEntry :=
  { id := 3, kanjis := [],
    readings := [{ text := "あ", relevant_to := [], levels := [NLevel.N4] }],
    senses := [{ relevant_kanji := [], relevant_reading := [], pos := [Pos.N],
                 gloss := [{ content := "c" }] }] }

/-- Dictionary holding `cEntry` and two homophonous alternates. -/
def cDict : Dictionary :=
  ⟨[cEntry, cEntryB, cEntryC]⟩

/-- An entry whose kanji spelling is level-tagged while its reading carries no
level tag. -/
def kEntry : DictEntry :=
  { id := 7, kanjis := [{ text := "亜", levels := [NLevel.N1] }],
    readings := [{ text := "あ", relevant_to := [], levels := [] }],
    senses := [{ relevant_kanji := [], relevant_reading := [], pos := [Pos.N],
                 gloss := [{ content := "sub-" }] }] }

/-- Dictionary holding only `kEntry`. -/
def kDict : Dictionary :=
  ⟨[kEntry]⟩

/-- A registry with one live session under key 5. -/
def mState : ManagerState :=
  ⟨[(5, [])]⟩

/-- An interaction whose custom id encodes session key 5. -/
def wInteraction : Interaction :=
  ⟨"5,0"⟩

/-- An interaction whose custom id has no leading digits. -/
def wStray : Interaction :=
  ⟨"x"⟩

/-- The round menu of the spec's §8.6 example: round id r1, answer r1,2. -/
def wMenu : Menu :=
  { id := "r1",
    questions :=
      [{ id := "r1,0", text := "a", disabled := false },
       { id := "r1,1", text := "b", disabled := false },
       { id := "r1,2", text := "c", disabled := false },
       { id := "r1,3", text := "d", disabled := false },
       { id := "r1,4", text := "e", disabled := false }],
    answer := 2 }

/-- A concrete session history: one answered round, then a timeout. -/
def wEvents : List RoundEvent :=
  [RoundEvent.answered, RoundEvent.aborted RoundAbort.Timeout]

/-- A constant coin-flip oracle. -/
def wCoin : Nat → Bool :=
  fun _ => true

/-- A constant pool-pick oracle. -/
def wPick : Nat → Nat :=
  fun _ => 0

/-- Per-attempt RNG oracles, all equal. -/
def wOracles : Nat → (Nat → Bool) × (Nat → Nat) :=
  fun _ => (wCoin, wPick)

/-- Already-chosen options containing the only string the constant-oracle
scramble of あ can produce. -/
def wTaken : List String :=
  [scrambleStr "あ" wCoin wPick]

theorem getSession_filter_self (l : List (Nat × List GameMessage)) (k : Nat) :
    getSession (l.filter (fun p => !(p.1 = k))) k = none := by
  induction l with
  | nil => rfl
  | cons hd tl ih =>
    obtain ⟨a, b⟩ := hd
    by_cases h : a = k
    · simp [List.filter, h, ih]
    · simp [List.filter, h, getSession, ih, Ne.symm h]

theorem getSession_filter_other (l : List (Nat × List GameMessage)) (k k' : Nat)
    (h : k' ≠ k) :
    getSession (l.filter (fun p => !(p.1 = k))) k' = getSession l k' := by
  induction l with
  | nil => rfl
  | cons hd tl ih =>
    obtain ⟨a, b⟩ := hd
    by_cases ha : a = k
    · subst ha
      simp [List.filter, getSession, h, ih]
    · by_cases hk : k' = a
      · simp [List.filter, ha, getSession, hk]
      · simp [List.filter, ha, getSession, hk, ih]

theorem getSession_enqueue_self (s : ManagerState) (k : Nat) (m : GameMessage) :
    getSession (enqueueMessage s k m).sessions k =
      (getSession s.sessions k).map (fun q => q ++ [m]) := by
  obtain ⟨l⟩ := s
  induction l with
  | nil => rfl
  | cons hd tl ih =>
    obtain ⟨a, b⟩ := hd
    by_cases h : a = k
    · subst h
      simp [enqueueMessage, enqueueChan, getSession]
    · have hk : ¬ k = a := fun hk => h hk.symm
      simpa [enqueueMessage, enqueueChan, getSession, h, hk] using ih

theorem getSession_enqueue_other (s : ManagerState) (k k' : Nat) (m : GameMessage)
    (h : k' ≠ k) :
    getSession (enqueueMessage s k m).sessions k' = getSession s.sessions k' := by
  obtain ⟨l⟩ := s
  induction l with
  | nil => rfl
  | cons hd tl ih =>
    obtain ⟨a, b⟩ := hd
    by_cases ha : a = k
    · subst ha
      simpa [enqueueMessage, enqueueChan, getSession, h] using ih
    · by_cases hk : k' = a
      · simp [enqueueMessage, enqueueChan, getSession, ha, hk]
      · simpa [enqueueMessage, enqueueChan, getSession, ha, hk] using ih

theorem keys_enqueue (s : ManagerState) (k : Nat) (m : GameMessage) :
    (enqueueMessage s k m).sessions.map Prod.fst = s.sessions.map Prod.fst := by
  obtain ⟨l⟩ := s
  induction l with
  | nil => rfl
  | cons hd tl ih =>
    obtain ⟨a, b⟩ := hd
    by_cases h : a = k <;> simpa [enqueueMessage, enqueueChan, h] using ih

theorem hasSession_enqueue (s : ManagerState) (k k' : Nat) (m : GameMessage) :
    hasSession (enqueueMessage s k m) k' = hasSession s k' := by
  by_cases h : k' = k
  · subst h
    simp [hasSession, getSession_enqueue_self]
  · simp [hasSession, getSession_enqueue_other s k k' m h]

theorem answerIndex_spec (target : String) (options : List String)
    (h : target ∈ options) :
    answerIndex target options < options.length ∧
      options.getD (answerIndex target options) "" = target := by
  induction options with
  | nil => simp at h
  | cons a as ih =>
    by_cases hx : target = a
    · unfold answerIndex
      rw [List.findIdx_cons]
      rw [decide_eq_true hx]
      refine ⟨by simp, ?_⟩
      show (a :: as).getD 0 "" = target
      rw [List.getD_cons_zero]
      exact hx.symm
    · have hmem : target ∈ as := by
        rcases List.mem_cons.1 h with h1 | h1
        · exact absurd h1 hx
        · exact h1
      obtain ⟨ih1, ih2⟩ := ih hmem
      unfold answerIndex at ih1 ih2 ⊢
      rw [List.findIdx_cons, decide_eq_false hx]
      refine ⟨?_, ?_⟩
      · show List.findIdx (fun o => decide (target = o)) as + 1 < (a :: as).length
        simp only [List.length_cons]
        omega
      · show (a :: as).getD (List.findIdx (fun o => decide (target = o)) as + 1) "" = target
        rw [List.getD_cons_succ]
        exact ih2

theorem mkOptions_length (t : String) (sel : List String) :
    (mkOptions t sel).length = 5 := by
  have h : (sel.take 4).length ≤ 4 := by
    simp [List.length_take]
  simp only [mkOptions, List.length_cons, List.length_append, List.length_replicate]
  omega

theorem mkOptions_getD_zero (t : String) (sel : List String) :
    (mkOptions t sel).getD 0 "" = t :=
  rfl

theorem length_applyPerm (σ : Equiv.Perm (Fin 5)) (l : List String) :
    (applyPerm σ l).length = 5 :=
  List.length_ofFn _

theorem getD_zero_mem_applyPerm (σ : Equiv.Perm (Fin 5)) (l : List String) :
    l.getD 0 "" ∈ applyPerm σ l := by
  unfold applyPerm
  refine (List.mem_ofFn _ _).2 ⟨σ.symm 0, ?_⟩
  show l.getD ((σ (σ.symm 0) : Fin 5) : Nat) "" = l.getD 0 ""
  rw [Equiv.apply_symm_apply]
  rfl

theorem built_options_integrity (target : String) (sel : List String)
    (σ : Equiv.Perm (Fin 5)) :
    (applyPerm σ (mkOptions target sel)).length = 5 ∧
      answerIndex target (applyPerm σ (mkOptions target sel)) < 5 ∧
      (applyPerm σ (mkOptions target sel)).getD
        (answerIndex target (applyPerm σ (mkOptions target sel))) "" = target := by
  have hmem : target ∈ applyPerm σ (mkOptions target sel) := by
    have := getD_zero_mem_applyPerm σ (mkOptions target sel)
    rwa [mkOptions_getD_zero] at this
  obtain ⟨h1, h2⟩ := answerIndex_spec target _ hmem
  rw [length_applyPerm] at h1
  exact ⟨length_applyPerm σ _, h1, h2⟩

theorem mem_dedupConsec (l : List NLevel) (a : NLevel) :
    a ∈ dedupConsec l ↔ a ∈ l := by
  induction l with
  | nil => simp [dedupConsec]
  | cons b t ih =>
    cases t with
    | nil => simp [dedupConsec]
    | cons c t2 =>
      unfold dedupConsec
      by_cases h : b = c
      · subst h
        simp [ih]
      · simp [h, ih]

theorem mem_insertLevel (a x : NLevel) (l : List NLevel) :
    x ∈ insertLevel a l ↔ x = a ∨ x ∈ l := by
  induction l with
  | nil => simp [insertLevel]
  | cons b t ih =>
    unfold insertLevel
    by_cases h : nlevelRank a ≤ nlevelRank b
    · simp [h]
    · simp only [h, if_neg, if_false, List.mem_cons, ih]
      tauto

theorem mem_sortLevels (x : NLevel) (l : List NLevel) :
    x ∈ sortLevels l ↔ x ∈ l := by
  induction l with
  | nil => simp [sortLevels]
  | cons a t ih =>
    unfold sortLevels
    rw [mem_insertLevel, ih, List.mem_cons]

theorem mem_levels (e : DictEntry) (lvl : NLevel) :
    lvl ∈ e.levels ↔ ∃ r ∈ e.readings, lvl ∈ r.levels := by
  unfold DictEntry.levels
  rw [mem_dedupConsec, mem_sortLevels, List.mem_flatMap]

theorem sampleQualifies_eq_readings (e : DictEntry) (levels : List NLevel)
    (pos : List Pos) :
    sampleQualifies e levels pos =
      (e.readings.any (fun r => r.levels.any (fun lvl => levels.contains lvl)) &&
        e.senses.any (fun sense => sense.pos.any (fun p => pos.contains p))) := by
  unfold sampleQualifies
  congr 1
  rw [Bool.eq_iff_iff]
  simp only [List.any_eq_true]
  constructor
  · rintro ⟨lvl, hmem, hc⟩
    obtain ⟨r, hr, hl⟩ := (mem_levels e lvl).1 hmem
    exact ⟨r, hr, lvl, hl, hc⟩
  · rintro ⟨r, hr, lvl, hl, hc⟩
    exact ⟨lvl, (mem_levels e lvl).2 ⟨r, hr, hl⟩, hc⟩

theorem parse_custom_id_choice_lt (custom_id : String) (mid : String) (choice : Nat)
    (h : parse_custom_id custom_id = some (mid, choice)) : choice < 5 := by
  unfold parse_custom_id at h
  rcases hd : custom_id.data.reverse with _ | ⟨d, rest⟩
  · rw [hd] at h
    exact absurd h (by simp)
  · rcases rest with _ | ⟨c2, rest2⟩
    · rw [hd] at h
      exact absurd h (by simp)
    · rw [hd] at h
      by_cases hc : c2 = ','
      · subst hc
        by_cases hr : '0' ≤ d ∧ d ≤ '4'
        · simp only [hr, if_pos] at h
          obtain ⟨-, h2⟩ := Prod.mk.injEq .. ▸ Option.some.injEq .. ▸ h
          have h4 : d.toNat ≤ 52 := by
            have := hr.2
            rw [Char.le_def, UInt32.le_def] at this
            exact this
          omega
        · simp [hr] at h
      · simp [hc] at h

theorem scrambleUniqueAux_all_collide (s : String) (taken : List String)
    (oracles : Nat → (Nat → Bool) × (Nat → Nat)) :
    ∀ fuel start,
      (∀ i, start ≤ i → i < start + fuel →
        taken.contains (scrambleStr s (oracles i).1 (oracles i).2) = true) →
      scrambleUniqueAux s taken oracles fuel start = sentinelPlaceholder := by
  intro fuel
  induction fuel with
  | zero => intro start _; rfl
  | succ n ih =>
    intro start h
    unfold scrambleUniqueAux
    have hc := h start (Nat.le_refl _) (by omega)
    simp only [hc, if_pos]
    exact ih (start + 1) (fun i h1 h2 => h i (by omega) (by omega))

/-- C1: for every session key, `start_game` fails with `SessionAlreadyCreated`
and leaves the registry unchanged when a session is already registered under
the key; otherwise it registers a fresh control channel under the key (all
other keys untouched) and returns `Ok`; and after the session task has
deregistered itself, a subsequent `start_game` under the same key succeeds
again. -/
theorem start_game_one_session_per_key (s : ManagerState) (k : Nat) :
    (hasSession s k = true → start_game s k = (Except.error {}, s)) ∧
    (hasSession s k = false →
      (start_game s k).1 = Except.ok () ∧
      getSession (start_game s k).2.sessions k = some [] ∧
      (∀ k', k' ≠ k →
        getSession (start_game s k).2.sessions k' = getSession s.sessions k') ∧
      (start_game (eraseSession (start_game s k).2 k) k).1 = Except.ok ()) := by
  constructor
  · intro h
    simp [start_game, h]
  · intro h
    have h2 : start_game s k = (Except.ok (), ⟨(k, []) :: s.sessions⟩) := by
      simp [start_game, h]
    rw [h2]
    refine ⟨rfl, by simp [getSession], ?_, ?_⟩
    · intro k' hk
      simp [getSession, hk]
    · have h3 : hasSession (eraseSession ⟨(k, []) :: s.sessions⟩ k) k = false := by
        simp [hasSession, eraseSession, getSession_filter_self]
      simp [start_game, h3]

/-- C9: `Manager::stop` returns true and sends `GameMessage::Close` into the
key's control channel when a session is registered under the key, and returns
false leaving the state untouched otherwise. -/
theorem manager_stop_signal (s : ManagerState) (k : Nat) :
    (hasSession s k = true →
      (Manager.stop s k).1 = true ∧
      getSession (Manager.stop s k).2.sessions k =
        (getSession s.sessions k).map (fun q => q ++ [GameMessage.close])) ∧
    (hasSession s k = false → Manager.stop s k = (false, s)) := by
  constructor
  · intro h
    have h2 : Manager.stop s k = (true, enqueueMessage s k .close) := by
      simp [Manager.stop, h]
    rw [h2]
    exact ⟨rfl, getSession_enqueue_self s k .close⟩
  · intro h
    simp [Manager.stop, h]

/-- C10: `Manager::stop` never changes the set of registered sessions — only
the session task's own epilogue removes its key — so right after a `stop`
that returned true, `start_game` under the same key still fails with
`SessionAlreadyCreated`, while after the session epilogue it succeeds. -/
theorem manager_stop_registry_frame (s : ManagerState) (k : Nat) :
    (Manager.stop s k).2.sessions.map Prod.fst = s.sessions.map Prod.fst ∧
    (∀ k', hasSession (Manager.stop s k).2 k' = hasSession s k') ∧
    ((Manager.stop s k).1 = true →
      (start_game (Manager.stop s k).2 k).1 = Except.error {}) ∧
    (∀ r, (start_game (sessionEpilogue (Manager.stop s k).2 k r).2 k).1 =
      Except.ok ()) := by
  have herase : ∀ (st : ManagerState) (r : InteractionExitReason),
      (start_game (sessionEpilogue st k r).2 k).1 = Except.ok () := by
    intro st r
    have h3 : hasSession (sessionEpilogue st k r).2 k = false := by
      simp [sessionEpilogue, hasSession, eraseSession, getSession_filter_self]
    simp [start_game, h3]
  by_cases h : hasSession s k = true
  · have h2 : Manager.stop s k = (true, enqueueMessage s k .close) := by
      simp [Manager.stop, h]
    rw [h2]
    refine ⟨keys_enqueue s k .close, fun k' => hasSession_enqueue s k k' .close, ?_, ?_⟩
    · intro _
      have h4 : hasSession (enqueueMessage s k GameMessage.close) k = true := by
        rw [hasSession_enqueue]
        exact h
      simp [start_game, h4]
    · intro r
      exact herase _ r
  · have h1 : hasSession s k = false := by
      simpa using h
    have h2 : Manager.stop s k = (false, s) := by
      simp [Manager.stop, h1]
    rw [h2]
    refine ⟨rfl, fun k' => rfl, ?_, fun r => herase s r⟩
    intro hfalse
    exact absurd hfalse (by simp)

/-- C6: `Manager::send` parses the leading digit run of the event's custom id
as a session key and forwards the event only to the session registered under
that key (other keys' channels untouched); if the id has no parsable key or
no session is registered under it, the registry is left unchanged. -/
theorem manager_send_routing (s : ManagerState) (ci : Interaction) :
    (∀ k, parse_session_id ci.custom_id = some k →
      (hasSession s k = true →
        Manager.send s ci = enqueueMessage s k (.interaction ci) ∧
        getSession (Manager.send s ci).sessions k =
          (getSession s.sessions k).map (fun q => q ++ [GameMessage.interaction ci]) ∧
        (∀ k', k' ≠ k →
          getSession (Manager.send s ci).sessions k' = getSession s.sessions k')) ∧
      (hasSession s k = false → Manager.send s ci = s)) ∧
    (parse_session_id ci.custom_id = none → Manager.send s ci = s) := by
  constructor
  · intro k hp
    constructor
    · intro h
      have h2 : Manager.send s ci = enqueueMessage s k (.interaction ci) := by
        simp [Manager.send, hp, h]
      refine ⟨h2, ?_, ?_⟩
      · rw [h2]
        exact getSession_enqueue_self s k _
      · intro k' hk
        rw [h2]
        exact getSession_enqueue_other s k k' _ hk
    · intro h
      simp [Manager.send, hp, h]
  · intro hp
    simp [Manager.send, hp]

/-- C7: the session loop exits for exactly one of the four reasons; the final
status message exists with distinct text for each reason except a close
request, which sends none; the inactivity bound is 120 seconds; and the
epilogue deregisters exactly the session's own key. -/
theorem session_exit_reasons (events : List RoundEvent) (s : ManagerState) (k : Nat) :
    (sessionLoop events = .PoolExhausted ∨ sessionLoop events = .Timeout ∨
      sessionLoop events = .NetworkError ∨ sessionLoop events = .CloseRequest) ∧
    ((exitMessage (sessionLoop events)).isNone ↔ sessionLoop events = .CloseRequest) ∧
    exitMessage .PoolExhausted ≠ exitMessage .Timeout ∧
    exitMessage .PoolExhausted ≠ exitMessage .NetworkError ∧
    exitMessage .Timeout ≠ exitMessage .NetworkError ∧
    sessionTimeoutSecs = 120 ∧
    hasSession (sessionEpilogue s k (sessionLoop events)).2 k = false ∧
    (∀ k', k' ≠ k →
      getSession (sessionEpilogue s k (sessionLoop events)).2.sessions k' =
        getSession s.sessions k') := by
  refine ⟨?_, ?_, by decide, by decide, by decide, rfl, ?_, ?_⟩
  · rcases hh : sessionLoop events <;> simp [hh]
  · cases sessionLoop events <;> simp [exitMessage]
  · simp [sessionEpilogue, hasSession, eraseSession, getSession_filter_self]
  · intro k' hk
    simpa [sessionEpilogue, eraseSession] using
      getSession_filter_other s.sessions k k' hk

/-- Witness for C1 at the concrete registry `{5 ↦ live}`. -/
theorem start_game_one_session_per_key_witness :
    start_game mState 5 = (Except.error {}, mState) ∧
    (start_game mState 3).1 = Except.ok () ∧
    getSession (start_game mState 3).2.sessions 3 = some [] ∧
    (start_game (eraseSession (start_game mState 3).2 3) 3).1 = Except.ok () := by
  have h1 := (start_game_one_session_per_key mState 5).1 (by decide)
  have h2 := (start_game_one_session_per_key mState 3).2 (by decide)
  exact ⟨h1, h2.1, h2.2.1, h2.2.2.2⟩

/-- Witness for C9 at the concrete registry `{5 ↦ live}`. -/
theorem manager_stop_signal_witness :
    (Manager.stop mState 5).1 = true ∧
    getSession (Manager.stop mState 5).2.sessions 5 = some [GameMessage.close] ∧
    Manager.stop mState 3 = (false, mState) := by
  have h1 := (manager_stop_signal mState 5).1 (by decide)
  have h2 := (manager_stop_signal mState 3).2 (by decide)
  refine ⟨h1.1, ?_, h2⟩
  rw [h1.2]
  rfl

/-- Witness for C10 at the concrete registry `{5 ↦ live}`. -/
theorem manager_stop_registry_frame_witness :
    (Manager.stop mState 5).2.sessions.map Prod.fst = [5] ∧
    (start_game (Manager.stop mState 5).2 5).1 = Except.error {} ∧
    (start_game
      (sessionEpilogue (Manager.stop mState 5).2 5 InteractionExitReason.CloseRequest).2
      5).1 = Except.ok () := by
  have h := manager_stop_registry_frame mState 5
  refine ⟨?_, h.2.2.1 (by decide), h.2.2.2 InteractionExitReason.CloseRequest⟩
  rw [h.1]
  rfl

/-- Witness for C6: an event for the live key 5 is forwarded, an event for the
unregistered key 7 and an unparsable event are discarded. -/
theorem manager_send_routing_witness :
    Manager.send mState wInteraction = enqueueMessage mState 5 (.interaction wInteraction) ∧
    getSession (Manager.send mState wInteraction).sessions 5 =
      some [GameMessage.interaction wInteraction] ∧
    Manager.send mState ⟨"7,0"⟩ = mState ∧
    Manager.send mState wStray = mState := by
  have h1 := ((manager_send_routing mState wInteraction).1 5 (by decide)).1 (by decide)
  have h2 := ((manager_send_routing mState ⟨"7,0"⟩).1 7 (by decide)).2 (by decide)
  have h3 := (manager_send_routing mState wStray).2 (by decide)
  refine ⟨h1.1, ?_, h2, h3⟩
  rw [h1.2.1]
  rfl

/-- Witness for C7 at a concrete two-round history ending in a timeout. -/
theorem session_exit_reasons_witness :
    ((exitMessage (sessionLoop wEvents)).isNone ↔ sessionLoop wEvents = .CloseRequest) ∧
    hasSession (sessionEpilogue mState 5 (sessionLoop wEvents)).2 5 = false ∧
    getSession (sessionEpilogue mState 3 (sessionLoop wEvents)).2.sessions 5 = some [] := by
  have h := session_exit_reasons wEvents mState 5
  have h2 := session_exit_reasons wEvents mState 3
  refine ⟨h.2.1, h.2.2.2.2.2.2.1, ?_⟩
  rw [h2.2.2.2.2.2.2.2 5 (by decide)]
  rfl

/-- C5: on a selection event whose parsed round identifier matches the menu's
own id, choosing the component whose id equals the recorded answer's id
disables all five options and resolves the round, while choosing any other
component disables only that component and keeps the round active; an event
whose round identifier differs from the menu's changes nothing. -/
theorem menu_selection_state (m : Menu) (ev : String) (mid : String) (choice : Nat)
    (hparse : parse_custom_id ev = some (mid, choice))
    (hlen : m.questions.length = 5) :
    (mid = m.id →
      ((m.questions.getD choice default).id = m.answer_id →
        (m.handleEvent ev).2 = .Resolved ∧
        (m.handleEvent ev).1.questions.length = 5 ∧
        (∀ q ∈ (m.handleEvent ev).1.questions, q.disabled = true)) ∧
      ((m.questions.getD choice default).id ≠ m.answer_id →
        (m.handleEvent ev).2 = .Active ∧
        (m.handleEvent ev).1.questions.length = 5 ∧
        (m.handleEvent ev).1.questions.getD choice default =
          (m.questions.getD choice default).disable ∧
        (∀ j, j ≠ choice →
          (m.handleEvent ev).1.questions.getD j default =
            m.questions.getD j default))) ∧
    (mid ≠ m.id → m.handleEvent ev = (m, .Active)) := by
  have hclt : choice < 5 := parse_custom_id_choice_lt ev mid choice hparse
  constructor
  · intro hmid
    constructor
    · intro hcorrect
      have he : m.handleEvent ev =
          ({ m with questions := m.questions.map QuestionComponent.disable },
            .Resolved) := by
        simp only [Menu.handleEvent, hparse]
        rw [if_pos hmid, if_pos hcorrect]
      rw [he]
      refine ⟨rfl, by simp [hlen], ?_⟩
      intro q hq
      obtain ⟨q', _, rfl⟩ := List.mem_map.1 hq
      rfl
    · intro hwrong
      have he : m.handleEvent ev =
          ({ m with
              questions := m.questions.set choice (m.questions.getD choice default).disable },
            .Active) := by
        simp only [Menu.handleEvent, hparse]
        rw [if_pos hmid, if_neg hwrong]
      rw [he]
      refine ⟨rfl, by simp [hlen], ?_, ?_⟩
      · have hset : choice < (m.questions.set choice
            (m.questions.getD choice default).disable).length := by
          rw [List.length_set, hlen]
          exact hclt
        rw [List.getD_eq_getElem _ _ hset, List.getElem_set_self]
      · intro j hj
        by_cases hjl : j < 5
        · have h1 : j < (m.questions.set choice
              (m.questions.getD choice default).disable).length := by
            rw [List.length_set, hlen]
            exact hjl
          have h2 : j < m.questions.length := by
            rw [hlen]
            exact hjl
          rw [List.getD_eq_getElem _ _ h1, List.getD_eq_getElem _ _ h2,
            List.getElem_set_ne (Ne.symm hj)]
        · have h1 : (m.questions.set choice
              (m.questions.getD choice default).disable).length ≤ j := by
            rw [List.length_set, hlen]
            omega
          have h2 : m.questions.length ≤ j := by
            rw [hlen]
            omega
          rw [List.getD_eq_default _ _ h1, List.getD_eq_default _ _ h2]
  · intro hmid
    simp only [Menu.handleEvent, hparse]
    rw [if_neg hmid]

/-- Witness for C5: the spec's §8.6 example — selecting r1,1 disables only
that option and stays active, then selecting r1,2 disables all five and
resolves; an event of a different round id changes nothing. -/
theorem menu_selection_state_witness :
    (wMenu.handleEvent "r1,1").2 = MenuStatus.Active ∧
    (wMenu.handleEvent "r1,1").1.questions.getD 1 default =
      { id := "r1,1", text := "b", disabled := true } ∧
    (wMenu.handleEvent "r1,1").1.questions.getD 0 default =
      { id := "r1,0", text := "a", disabled := false } ∧
    ((wMenu.handleEvent "r1,1").1.handleEvent "r1,2").2 = MenuStatus.Resolved ∧
    ((wMenu.handleEvent "r1,1").1.handleEvent "r1,2").1.questions =
      [{ id := "r1,0", text := "a", disabled := true },
       { id := "r1,1", text := "b", disabled := true },
       { id := "r1,2", text := "c", disabled := true },
       { id := "r1,3", text := "d", disabled := true },
       { id := "r1,4", text := "e", disabled := true }] ∧
    wMenu.handleEvent "r2,1" = (wMenu, MenuStatus.Active) := by
  have h1 := ((menu_selection_state wMenu "r1,1" "r1" 1 (by decide) (by decide)).1
    (by decide)).2 (by decide)
  have h2 := ((menu_selection_state (wMenu.handleEvent "r1,1").1 "r1,2" "r1" 2
    (by decide) (by decide)).1 (by decide)).1 (by decide)
  have h3 := (menu_selection_state wMenu "r2,1" "r2" 1 (by decide) (by decide)).2
    (by decide)
  refine ⟨h1.1, ?_, ?_, h2.1, by decide, h3⟩
  · rw [h1.2.2.1]
    decide
  · rw [h1.2.2.2 0 (by decide)]
    decide

theorem builder_integrity (target prompt : String) (sel : List String)
    (σ : Equiv.Perm (Fin 5)) (q : Question)
    (h : ({ prompt := prompt, options := applyPerm σ (mkOptions target sel),
            answer := answerIndex target (applyPerm σ (mkOptions target sel)) } : Question)
        = q) :
    q.options.length = 5 ∧ q.answer < 5 ∧ q.options.getD q.answer "" = target := by
  subst h
  exact built_options_integrity target sel σ

/-- C3: whenever `Question::new` succeeds, the question has exactly 5 option
strings, the recorded answer index is in range, and the option text at the
answer index is the correct target value extracted from the source entry for
that mode. -/
theorem question_new_integrity (entry : DictEntry) (mode : ModeChoice) (pos : Pos)
    (dict : Dictionary) (choose : List String → List String) (σ : Equiv.Perm (Fin 5))
    (q : Question) (h : Question.new entry mode pos dict choose σ = some q) :
    q.options.length = 5 ∧ q.answer < 5 ∧
      questionTarget entry mode pos = some (q.options.getD q.answer "") := by
  cases mode with
  | EngToHir =>
    simp only [Question.new, Question.new_eng_to_hir] at h
    rcases hrs : reading_sense_pair entry pos with _ | ⟨reading, sense⟩
    · rw [hrs] at h
      exact Option.noConfusion h
    · rw [hrs] at h
      obtain ⟨L, A, G⟩ := builder_integrity reading.text (glossHead sense)
        (choose (candsEngToHir dict entry pos)) σ q (Option.some.inj h)
      refine ⟨L, A, ?_⟩
      simp only [questionTarget, hrs, Option.map_some']
      exact congrArg some G.symm
  | HirToEng =>
    simp only [Question.new, Question.new_hir_to_eng] at h
    rcases hrs : reading_sense_pair entry pos with _ | ⟨reading, sense⟩
    · rw [hrs] at h
      exact Option.noConfusion h
    · rw [hrs] at h
      obtain ⟨L, A, G⟩ := builder_integrity (glossHead sense) reading.text
        (choose (candsHirToEng dict entry pos)) σ q (Option.some.inj h)
      refine ⟨L, A, ?_⟩
      simp only [questionTarget, hrs, Option.map_some']
      exact congrArg some G.symm
  | HirToKan =>
    simp only [Question.new, Question.new_hir_to_kan] at h
    rcases hrs : kanji_reading_pair entry pos with _ | ⟨kanji, reading⟩
    · rw [hrs] at h
      exact Option.noConfusion h
    · rw [hrs] at h
      obtain ⟨L, A, G⟩ := builder_integrity kanji.text reading.text
        (choose (candsHirToKan dict entry pos)) σ q (Option.some.inj h)
      refine ⟨L, A, ?_⟩
      simp only [questionTarget, hrs, Option.map_some']
      exact congrArg some G.symm
  | KanToHir =>
    simp only [Question.new, Question.new_kan_to_hir] at h
    rcases hrs : kanji_reading_pair entry pos with _ | ⟨kanji, reading⟩
    · rw [hrs] at h
      exact Option.noConfusion h
    · rw [hrs] at h
      obtain ⟨L, A, G⟩ := builder_integrity reading.text kanji.text
        (choose (candsKanToHir dict entry pos)) σ q (Option.some.inj h)
      refine ⟨L, A, ?_⟩
      simp only [questionTarget, hrs, Option.map_some']
      exact congrArg some G.symm
  | KanToEng =>
    simp only [Question.new, Question.new_kan_to_eng] at h
    rcases hrs : kanji_sense_pair entry pos with _ | ⟨kanji, sense⟩
    · rw [hrs] at h
      exact Option.noConfusion h
    · rw [hrs] at h
      obtain ⟨L, A, G⟩ := builder_integrity (glossHead sense) kanji.text
        (choose (candsKanToEng dict entry pos)) σ q (Option.some.inj h)
      refine ⟨L, A, ?_⟩
      simp only [questionTarget, hrs, Option.map_some']
      exact congrArg some G.symm
  | EngToKan =>
    simp only [Question.new, Question.new_eng_to_kan] at h
    rcases hrs : kanji_sense_pair entry pos with _ | ⟨kanji, sense⟩
    · rw [hrs] at h
      exact Option.noConfusion h
    · rw [hrs] at h
      obtain ⟨L, A, G⟩ := builder_integrity kanji.text (glossHead sense)
        (choose (candsEngToKan dict entry pos)) σ q (Option.some.inj h)
      refine ⟨L, A, ?_⟩
      simp only [questionTarget, hrs, Option.map_some']
      exact congrArg some G.symm

/-- Witness for C3 at a concrete entry and one-entry dictionary. -/
theorem question_new_integrity_witness :
    Question.new wEntry ModeChoice.EngToHir Pos.N wDict (fun l => l)
      (Equiv.refl (Fin 5)) = some wQuestion ∧
    wQuestion.options.length = 5 ∧ wQuestion.answer < 5 ∧
    questionTarget wEntry ModeChoice.EngToHir Pos.N =
      some (wQuestion.options.getD wQuestion.answer "") := by
  have h : Question.new wEntry ModeChoice.EngToHir Pos.N wDict (fun l => l)
      (Equiv.refl (Fin 5)) = some wQuestion := by decide
  have h2 := question_new_integrity wEntry ModeChoice.EngToHir Pos.N wDict
    (fun l => l) (Equiv.refl (Fin 5)) wQuestion h
  exact ⟨h, h2⟩

/-- Counterexample for C4: in `cDict`, the two alternate entries both read あ,
so a legitimate reservoir fill (taking all candidates, here modelled by the
identity selection) puts equal strings into slots 1 and 2 — the pre-shuffle
slots are not distinct — and the two unfilled slots keep the empty string
rather than being scramble-padded or dropped. -/
theorem question_distractor_slots_counterexample :
    candsEngToHir cDict cEntry Pos.N = ["あ", "あ"] ∧
    (mkOptions "しろ" (candsEngToHir cDict cEntry Pos.N)).getD 1 "" =
      (mkOptions "しろ" (candsEngToHir cDict cEntry Pos.N)).getD 2 "" ∧
    (mkOptions "しろ" (candsEngToHir cDict cEntry Pos.N)).getD 1 "" ≠ "" ∧
    (mkOptions "しろ" (candsEngToHir cDict cEntry Pos.N)).getD 3 "" = "" ∧
    (mkOptions "しろ" (candsEngToHir cDict cEntry Pos.N)).getD 4 "" = "" ∧
    Question.new_eng_to_hir cEntry Pos.N cDict (fun l => l) (Equiv.refl (Fin 5)) =
      some { prompt := "white", options := ["しろ", "あ", "あ", "", ""], answer := 0 } :=
  ⟨by decide, by decide, by decide, by decide, by decide, by decide⟩

/-- C4 (amended): before shuffling, slot 0 holds the correct target, the next
`sel.length` slots hold strings sampled without replacement from the
candidate occurrences of other entries that yield a valid pair under the same
tag (equal strings may repeat across slots when distinct entries share a
value), and the remaining slots keep the empty-string filler — there is no
kana-scramble padding and the option list stays at five entries. -/
theorem question_eng_to_hir_slots (entry : DictEntry) (pos : Pos) (dict : Dictionary)
    (choose : List String → List String) (σ : Equiv.Perm (Fin 5))
    (reading : Reading) (sense : Sense) (sel : List String)
    (hpair : reading_sense_pair entry pos = some (reading, sense))
    (hsel : sel = choose (candsEngToHir dict entry pos))
    (hsub : sel.Subperm (candsEngToHir dict entry pos))
    (hlen : sel.length ≤ 4) :
    (mkOptions reading.text sel).length = 5 ∧
    (mkOptions reading.text sel).getD 0 "" = reading.text ∧
    (∀ i, 1 ≤ i → i < 1 + sel.length →
      (mkOptions reading.text sel).getD i "" ∈ candsEngToHir dict entry pos) ∧
    (∀ i, 1 + sel.length ≤ i → i < 5 → (mkOptions reading.text sel).getD i "" = "") ∧
    (∀ x ∈ candsEngToHir dict entry pos, ∃ e ∈ dict.entries, e.id ≠ entry.id ∧
      ∃ r sn, reading_sense_pair e pos = some (r, sn) ∧ r.text = x) ∧
    Question.new_eng_to_hir entry pos dict choose σ =
      some { prompt := glossHead sense,
             options := applyPerm σ (mkOptions reading.text sel),
             answer := answerIndex reading.text (applyPerm σ (mkOptions reading.text sel)) } := by
  have htake : sel.take 4 = sel := List.take_of_length_le hlen
  refine ⟨mkOptions_length _ _, rfl, ?_, ?_, ?_, ?_⟩
  · intro i h1 h2
    obtain ⟨j, rfl⟩ : ∃ j, i = j + 1 := ⟨i - 1, by omega⟩
    have hj : j < sel.length := by omega
    simp only [mkOptions, htake, List.getD_cons_succ]
    rw [List.getD_append _ _ _ j hj, List.getD_eq_getElem _ _ hj]
    exact List.Subperm.subset hsub (List.getElem_mem hj)
  · intro i h1 h2
    obtain ⟨j, rfl⟩ : ∃ j, i = j + 1 := ⟨i - 1, by omega⟩
    have hj : sel.length ≤ j := by omega
    simp only [mkOptions, htake, List.getD_cons_succ]
    rw [List.getD_append_right _ _ _ j hj]
    by_cases hr : j - sel.length < 4 - sel.length
    · have hr2 : j - sel.length < (List.replicate (4 - sel.length) "").length := by
        rw [List.length_replicate]
        exact hr
      rw [List.getD_eq_getElem _ _ hr2, List.getElem_replicate]
    · have hr2 : (List.replicate (4 - sel.length) "").length ≤ j - sel.length := by
        rw [List.length_replicate]
        omega
      rw [List.getD_eq_default _ _ hr2]
  · intro x hx
    obtain ⟨e, he, hfe⟩ := List.mem_filterMap.1 hx
    by_cases hid : e.id = entry.id
    · rw [if_pos hid] at hfe
      exact Option.noConfusion hfe
    · rw [if_neg hid] at hfe
      rcases hp : reading_sense_pair e pos with _ | ⟨r, sn⟩
      · rw [hp] at hfe
        exact Option.noConfusion hfe
      · rw [hp, Option.map_some'] at hfe
        exact ⟨e, he, hid, r, sn, hp, Option.some.inj hfe⟩
  · subst hsel
    simp only [Question.new_eng_to_hir, hpair]

/-- Witness for C4's amended statement at the concrete `cDict` run. -/
theorem question_eng_to_hir_slots_witness :
    (mkOptions "しろ" ["あ", "あ"]).length = 5 ∧
    (mkOptions "しろ" ["あ", "あ"]).getD 1 "" ∈ candsEngToHir cDict cEntry Pos.N ∧
    (mkOptions "しろ" ["あ", "あ"]).getD 3 "" = "" := by
  have hc : candsEngToHir cDict cEntry Pos.N = ["あ", "あ"] := by decide
  have h := question_eng_to_hir_slots cEntry Pos.N cDict (fun l => l) (Equiv.refl (Fin 5))
    { text := "しろ", relevant_to := [], levels := [NLevel.N4] }
    { relevant_kanji := [], relevant_reading := [], pos := [Pos.N],
      gloss := [{ content := "white" }] }
    ["あ", "あ"] (by decide) (by rw [hc]) (by rw [hc]) (by decide)
  exact ⟨h.1, h.2.2.1 1 (by decide) (by decide), h.2.2.2.1 3 (by decide) (by decide)⟩

/-- Counterexample for C2: `kEntry` has a kanji tagged N1 but no reading-level
tag, so it satisfies the claim's reading-or-kanji condition yet
`Dictionary::sample` (which consults `DictEntry::levels`, i.e. reading levels
only) returns it in no sample. -/
theorem sample_levels_counterexample :
    kEntry ∈ kDict.entries ∧
    specSampleQualifies kEntry [NLevel.N1] [Pos.N] = true ∧
    Dictionary.sample kDict [NLevel.N1] [Pos.N] id = [] :=
  ⟨by decide, by decide, by decide⟩

/-- C2 (amended): for any permutation-valued shuffle, an entry is in the
sample exactly when it is a dictionary entry with at least one
reading-level tag in the requested levels (kanji-only level tags do not
count) and at least one sense whose tags intersect the requested parts of
speech; when no entry qualifies the sample is the empty list, not an
error. -/
theorem dictionary_sample_spec (d : Dictionary) (levels : List NLevel) (pos : List Pos)
    (shuffle : List DictEntry → List DictEntry)
    (hs : ∀ l, (shuffle l).Perm l) :
    (∀ e, e ∈ d.sample levels pos shuffle ↔
      e ∈ d.entries ∧
        (e.readings.any (fun r => r.levels.any (fun lvl => levels.contains lvl)) &&
          e.senses.any (fun sense => sense.pos.any (fun p => pos.contains p))) = true) ∧
    ((∀ e ∈ d.entries,
        (e.readings.any (fun r => r.levels.any (fun lvl => levels.contains lvl)) &&
          e.senses.any (fun sense => sense.pos.any (fun p => pos.contains p))) = false) →
      d.sample levels pos shuffle = []) := by
  have hmem : ∀ e, e ∈ d.sample levels pos shuffle ↔
      e ∈ d.entries ∧ sampleQualifies e levels pos = true := by
    intro e
    unfold Dictionary.sample
    rw [(hs _).mem_iff, List.mem_filter]
  constructor
  · intro e
    have h := hmem e
    rwa [sampleQualifies_eq_readings] at h
  · intro hall
    have h2 : d.entries.filter (fun e => sampleQualifies e levels pos) = [] := by
      rw [List.filter_eq_nil_iff]
      intro a ha
      rw [sampleQualifies_eq_readings]
      intro hx
      rw [hall a ha] at hx
      exact Bool.noConfusion hx
    unfold Dictionary.sample
    rw [h2]
    exact (hs []).eq_nil

/-- Witness for C2's amended statement: the reading-tagged `wEntry` is
sampled, and a dictionary whose only entry has no reading-level tag yields
the empty sample. -/
theorem dictionary_sample_spec_witness :
    wEntry ∈ wDict.sample [NLevel.N4] [Pos.N] id ∧
    kDict.sample [NLevel.N1] [Pos.N] id = [] := by
  have h1 := (dictionary_sample_spec wDict [NLevel.N4] [Pos.N] id
    (fun l => List.Perm.refl l)).1 wEntry
  have h2 := (dictionary_sample_spec kDict [NLevel.N1] [Pos.N] id
    (fun l => List.Perm.refl l)).2
  exact ⟨h1.mpr (by decide), h2 (by decide)⟩

theorem scrambleChars_length (cs : List Char) (coin : Nat → Bool) (pick : Nat → Nat) :
    (scrambleChars cs coin pick).length = cs.length := by
  simp [scrambleChars, List.enum_length]

theorem scrambleChars_charset (cs : List Char) (coin : Nat → Bool) (pick : Nat → Nat)
    (i : Nat) (hi : i < cs.length) :
    (scrambleChars cs coin pick).getD i 'x' = cs.getD i 'x' ∨
    (scrambleChars cs coin pick).getD i 'x' ∈ swapPool (cs.getD i 'x') := by
  have hi2 : i < (scrambleChars cs coin pick).length := by
    rw [scrambleChars_length]
    exact hi
  rw [List.getD_eq_getElem _ _ hi2, List.getD_eq_getElem _ _ hi]
  unfold scrambleChars
  rw [List.getElem_map, List.getElem_enum]
  by_cases hpool : (swapPool cs[i]).isEmpty
  · left
    simp [hpool]
  · have hlen0 : 0 < (swapPool cs[i]).length := by
      rcases hp : swapPool cs[i] with _ | ⟨a, t⟩
      · rw [hp] at hpool
        exact absurd rfl hpool
      · simp
    by_cases hcond : ((cs.length < 4 ||
        decide ((cs.filter (fun c => !(swapPool c).isEmpty)).length * 5 < cs.length * 3)) ||
        coin i) = true
    · right
      simp only [hpool, Bool.false_eq_true, if_false, hcond, if_true]
      have hm : pick i % (swapPool cs[i]).length < (swapPool cs[i]).length :=
        Nat.mod_lt _ hlen0
      rw [List.getD_eq_getElem _ _ hm]
      exact List.getElem_mem hm
    · left
      simp only [hpool, Bool.false_eq_true, if_false, hcond, if_false]

/-- C8 (spec-modelled, the distractor engine is not under `src/`): a scrambled
reading has the same character count as the input, each output character is
the input character at that position or a member of its designated swap pool,
and when all 1000 retry attempts collide with already-chosen options the
fixed sentinel placeholder is substituted. -/
theorem scramble_spec (s : String) (coin : Nat → Bool) (pick : Nat → Nat)
    (taken : List String) (oracles : Nat → (Nat → Bool) × (Nat → Nat)) :
    (scrambleStr s coin pick).data.length = s.data.length ∧
    (∀ i, i < s.data.length →
      (scrambleStr s coin pick).data.getD i 'x' = s.data.getD i 'x' ∨
      (scrambleStr s coin pick).data.getD i 'x' ∈ swapPool (s.data.getD i 'x')) ∧
    ((∀ i, i < 1000 →
        taken.contains (scrambleStr s (oracles i).1 (oracles i).2) = true) →
      scrambleUnique s taken oracles = sentinelPlaceholder) := by
  refine ⟨scrambleChars_length s.data coin pick, ?_, ?_⟩
  · intro i hi
    exact scrambleChars_charset s.data coin pick i hi
  · intro hcol
    exact scrambleUniqueAux_all_collide s taken oracles 1000 0
      (fun i _ h2 => hcol i (by omega))

/-- Witness for C8 with constant oracles on the one-character reading あ. -/
theorem scramble_spec_witness :
    (scrambleStr "あ" wCoin wPick).data.length = "あ".data.length ∧
    ((scrambleStr "あ" wCoin wPick).data.getD 0 'x' = "あ".data.getD 0 'x' ∨
      (scrambleStr "あ" wCoin wPick).data.getD 0 'x' ∈ swapPool ("あ".data.getD 0 'x')) ∧
    scrambleUnique "あ" wTaken wOracles = sentinelPlaceholder := by
  have h := scramble_spec "あ" wCoin wPick wTaken wOracles
  exact ⟨h.1, h.2.1 0 (by decide), h.2.2 (fun i _ => rfl)⟩
